import Mathlib

/-!
Shallow embedding of the Aerospike hybrid logical clock (HLC) component
declared in `src/as/include/fabric/hlc.h`.  Only the header is present in
the repository snapshot, so the bodies of the operations are modelled from
the specification's algorithm descriptions (sections 4.1-4.5 of the design
document).  Timestamps are unsigned 64-bit values whose most significant 48
bits hold a physical component (milliseconds) and whose least significant 16
bits hold a logical event counter; the spec treats physical components that
do not fit in 48 bits as programming errors, so the embedding uses `Nat`
without wrap-around.  The mutable process-wide clock state is made explicit:
each operation takes the current state (the last issued timestamp) and the
current wall-clock reading `pt` as arguments and returns the committed value.
-/

namespace HLC

/-- Modelled from the spec: the timestamp codec `pack` (section 4.1), whose
implementation is not under `src/` (only the header `hlc.h` is).  The
physical component occupies bits 63..16 and the logical component bits
15..0 of the packed 64-bit value. -/
def pack (physical logical : Nat) : Nat :=
  physical * 65536 + logical

/-- Modelled from the spec: `unpack_physical` (section 4.1) returns bits
63..16 of a packed timestamp, i.e. its physical millisecond component. -/
def unpack_physical (ts : Nat) : Nat :=
  ts / 65536

/-- Modelled from the spec: `unpack_logical` (section 4.1) returns bits
15..0 of a packed timestamp, i.e. its logical event counter. -/
def unpack_logical (ts : Nat) : Nat :=
  ts % 65536

/-- Modelled from the spec: the shared overflow handling and commit step
(section 4.3 step 4 and section 4.4 step 4).  If the freshly computed
logical component would exceed 65535, the candidate physical component is
bumped by one millisecond and the logical component is reset to 0;
otherwise the candidate pair is packed as is. -/
def commit (physical logical : Nat) : Nat :=
  if 65535 < logical then pack (physical + 1) 0 else pack physical logical

/-- Modelled from the spec: `as_hlc_init` (section 4.2), whose body is not
under `src/`.  Seeds the clock state to `pack(current_wall_clock_ms, 0)`;
the wall-clock reading is passed explicitly. -/
def as_hlc_init (pt : Nat) : Nat :=
  pack pt 0

/-- Modelled from the spec: the candidate physical component of the Local
Advance algorithm (section 4.3 step 2): the maximum of the stored physical
component and the wall-clock reading. -/
def advance_candidate (last pt : Nat) : Nat :=
  max (unpack_physical last) pt

/-- Modelled from the spec: the logical component of the Local Advance
algorithm before overflow handling (section 4.3 step 3): increment the
stored counter when the candidate physical component equals the stored one,
otherwise reset to 0. -/
def advance_logical (last pt : Nat) : Nat :=
  if advance_candidate last pt = unpack_physical last then unpack_logical last + 1
  else 0

/-- Modelled from the spec: the Local Advance algorithm `as_hlc_timestamp_now`
(section 4.3), whose body is not under `src/`.  `last` is the clock-state
value read in step 1 and `pt` the wall-clock reading; the returned value is
the newly committed state (in a sequential execution the compare-and-retry
commit of step 5 always succeeds because the candidate is strictly greater
than `last`). -/
def as_hlc_timestamp_now (last pt : Nat) : Nat :=
  commit (advance_candidate last pt) (advance_logical last pt)

/-- Modelled from the spec: the candidate physical component of the Causal
Merge algorithm (section 4.4 step 2): the maximum of the stored physical
component, the send timestamp's physical component and the wall-clock
reading. -/
def merge_candidate (last send_ts pt : Nat) : Nat :=
  max (max (unpack_physical last) (unpack_physical send_ts)) pt

/-- Modelled from the spec: the logical component of the Causal Merge
algorithm before overflow handling (section 4.4 step 3), the classic HLC
merge rule by case on which physical components the candidate matches. -/
def merge_logical (last send_ts pt : Nat) : Nat :=
  if merge_candidate last send_ts pt = unpack_physical last then
    if merge_candidate last send_ts pt = unpack_physical send_ts then
      max (unpack_logical last) (unpack_logical send_ts) + 1
    else
      unpack_logical last + 1
  else if merge_candidate last send_ts pt = unpack_physical send_ts then
    unpack_logical send_ts + 1
  else
    0

/-- Modelled from the spec: the Causal Merge algorithm
`as_hlc_timestamp_update` (section 4.4), whose body is not under `src/`.
`last` is the pre-call clock state, `send_ts` the remote send timestamp and
`pt` the wall-clock reading; the `source` node id affects only diagnostics
and is omitted.  Returns the newly committed state (the receive
timestamp). -/
def as_hlc_timestamp_update (last send_ts pt : Nat) : Nat :=
  commit (merge_candidate last send_ts pt) (merge_logical last send_ts pt)

/-- The message receipt pair from `hlc.h`: the sender's HLC timestamp at send
time and the local HLC timestamp at message receipt. -/
structure as_hlc_msg_timestamp where
  send_ts : Nat
  recv_ts : Nat
deriving DecidableEq

/-- Modelled from the spec: the receipt pair populated by
`as_hlc_timestamp_update` (section 4.4 step 7): the send timestamp is copied
verbatim from the message and the receive timestamp is the newly committed
clock-state value. -/
def as_hlc_timestamp_update_msg (last send_ts pt : Nat) : as_hlc_msg_timestamp :=
  { send_ts := send_ts, recv_ts := as_hlc_timestamp_update last send_ts pt }

/-- Modelled from the spec and from `hlc.h`: `as_hlc_timestamp_update` accepts
a NULL output pointer for the receipt pair, in which case the pointer is
ignored and nothing is written, while the clock state advances exactly as
with a non-NULL pointer.  The flag models NULL-ness of the output pointer
and the optional component models what is written through it. -/
def as_hlc_timestamp_update_out (last send_ts pt : Nat) (msg_ts_null : Bool) :
    Nat × Option as_hlc_msg_timestamp :=
  (as_hlc_timestamp_update last send_ts pt,
    if msg_ts_null then none else some (as_hlc_timestamp_update_msg last send_ts pt))

/-- The three-valued ordering result from `hlc.h`. -/
inductive as_hlc_timestamp_order where
  | AS_HLC_HAPPENS_BEFORE
  | AS_HLC_HAPPENS_AFTER
  | AS_HLC_ORDER_INDETERMINATE
deriving DecidableEq

/-- Modelled from the spec: `as_hlc_send_timestamp_order` (section 4.5,
`order_of_send`), whose body is not under `src/`.  Orders a local timestamp
against the send event recorded in a receipt pair: at or past the receive
timestamp the local event is after the send; strictly before the send
timestamp it is before; inside the causal window `[send_ts, recv_ts)` the
order is indeterminate. -/
def as_hlc_send_timestamp_order (local_ts : Nat) (msg_ts : as_hlc_msg_timestamp) :
    as_hlc_timestamp_order :=
  if msg_ts.recv_ts ≤ local_ts then as_hlc_timestamp_order.AS_HLC_HAPPENS_AFTER
  else if local_ts < msg_ts.send_ts then as_hlc_timestamp_order.AS_HLC_HAPPENS_BEFORE
  else as_hlc_timestamp_order.AS_HLC_ORDER_INDETERMINATE

/-- Modelled from the spec: `as_hlc_physical_ts_get` (section 4.1 / `hlc.h`),
the externally exposed accessor for the physical component of a timestamp. -/
def as_hlc_physical_ts_get (hlc_ts : Nat) : Nat :=
  unpack_physical hlc_ts

/-- Modelled from the spec: `as_hlc_timestamp_diff_ms` (section 4.5), whose
body is not under `src/`: the signed difference of the physical components
of two timestamps, in milliseconds. -/
def as_hlc_timestamp_diff_ms (ts1 ts2 : Nat) : Int :=
  (unpack_physical ts1 : Int) - (unpack_physical ts2 : Int)

/-- Modelled from the spec: `as_hlc_timestamp_subtract_ms` (section 4.5),
whose body is not under `src/`: subtracts `ms` milliseconds from the
physical component, clamped so it does not underflow below the epoch, with
the logical component reset to zero. -/
def as_hlc_timestamp_subtract_ms (timestamp : Nat) (ms : Int) : Nat :=
  pack ((unpack_physical timestamp : Int) - ms).toNat 0

/-- One call against the clock state: a Local Advance with wall reading `pt`,
or a Causal Merge with remote send timestamp `send_ts` and wall reading
`pt`. -/
inductive HlcOp where
  | now (pt : Nat)
  | update (send_ts pt : Nat)

/-- The clock-state transition of a single call. -/
def stepOp (last : Nat) : HlcOp → Nat
  | HlcOp.now pt => as_hlc_timestamp_now last pt
  | HlcOp.update send_ts pt => as_hlc_timestamp_update last send_ts pt

/-- The sequence of timestamps returned by a sequence of calls starting from
clock state `last`; each call returns the newly committed state. -/
def runOutputs (last : Nat) : List HlcOp → List Nat
  | [] => []
  | op :: ops => stepOp last op :: runOutputs (stepOp last op) ops

/-! ### Codec lemmas -/

theorem unpack_physical_pack (p l : Nat) (h : l < 65536) :
    unpack_physical (pack p l) = p := by
  unfold unpack_physical pack
  omega

theorem unpack_logical_pack (p l : Nat) (h : l < 65536) :
    unpack_logical (pack p l) = l := by
  unfold unpack_logical pack
  omega

theorem unpack_logical_lt (ts : Nat) : unpack_logical ts < 65536 :=
  Nat.mod_lt _ (by norm_num)

theorem pack_unpack (ts : Nat) :
    pack (unpack_physical ts) (unpack_logical ts) = ts := by
  unfold pack unpack_physical unpack_logical
  omega

/-! ### Strict growth of a single commit -/

theorem commit_gt (ts p l : Nat) (hp : unpack_physical ts ≤ p)
    (hl : unpack_physical ts = p → unpack_logical ts < l) :
    ts < commit p l := by
  have hts := pack_unpack ts
  have hlog := unpack_logical_lt ts
  unfold commit pack
  unfold pack at hts
  split
  · omega
  · rcases eq_or_lt_of_le hp with h | h
    · have := hl h
      omega
    · omega

theorem commit_lower (p l : Nat) : p * 65536 ≤ commit p l := by
  unfold commit pack
  split <;> omega

theorem advance_candidate_ge (last pt : Nat) :
    unpack_physical last ≤ advance_candidate last pt :=
  le_max_left _ _

theorem merge_candidate_ge_last (last send_ts pt : Nat) :
    unpack_physical last ≤ merge_candidate last send_ts pt :=
  le_trans (le_max_left _ _) (le_max_left _ _)

theorem merge_candidate_ge_send (last send_ts pt : Nat) :
    unpack_physical send_ts ≤ merge_candidate last send_ts pt :=
  le_trans (le_max_right _ _) (le_max_left _ _)

theorem now_gt (last pt : Nat) : last < as_hlc_timestamp_now last pt := by
  unfold as_hlc_timestamp_now
  apply commit_gt
  · exact advance_candidate_ge last pt
  · intro h
    unfold advance_logical
    rw [if_pos h.symm]
    exact Nat.lt_succ_self _

theorem update_gt_last (last send_ts pt : Nat) :
    last < as_hlc_timestamp_update last send_ts pt := by
  unfold as_hlc_timestamp_update
  apply commit_gt
  · exact merge_candidate_ge_last last send_ts pt
  · intro h
    unfold merge_logical
    rw [if_pos h.symm]
    split
    · exact Nat.lt_succ_of_le (le_max_left _ _)
    · exact Nat.lt_succ_self _

theorem update_gt_send (last send_ts pt : Nat) :
    send_ts < as_hlc_timestamp_update last send_ts pt := by
  unfold as_hlc_timestamp_update
  apply commit_gt
  · exact merge_candidate_ge_send last send_ts pt
  · intro h
    unfold merge_logical
    split
    · rw [if_pos h.symm]
      exact Nat.lt_succ_of_le (le_max_right _ _)
    · rw [if_pos h.symm]
      exact Nat.lt_succ_self _

theorem stepOp_gt (last : Nat) (op : HlcOp) : last < stepOp last op := by
  cases op with
  | now pt => exact now_gt last pt
  | update send_ts pt => exact update_gt_last last send_ts pt

/-! ### Strict monotonicity over call sequences -/

theorem runOutputs_mem_gt :
    ∀ (ops : List HlcOp) (last x : Nat), x ∈ runOutputs last ops → last < x := by
  intro ops
  induction ops with
  | nil => intro last x hx; simp [runOutputs] at hx
  | cons op ops ih =>
    intro last x hx
    simp only [runOutputs, List.mem_cons] at hx
    rcases hx with rfl | hx
    · exact stepOp_gt last op
    · exact lt_trans (stepOp_gt last op) (ih _ _ hx)

theorem runOutputs_pairwise (ops : List HlcOp) (last : Nat) :
    List.Pairwise (· < ·) (runOutputs last ops) := by
  induction ops generalizing last with
  | nil => exact List.Pairwise.nil
  | cons op ops ih =>
    refine List.Pairwise.cons ?_ (ih _)
    intro x hx
    exact runOutputs_mem_gt ops _ x hx

theorem runOutputs_length (ops : List HlcOp) (last : Nat) :
    (runOutputs last ops).length = ops.length := by
  induction ops generalizing last with
  | nil => rfl
  | cons op ops ih => simp [runOutputs, ih]

/-! ### Growth lemmas for frozen-clock bursts -/

theorem now_lower (last pt : Nat) : pt * 65536 ≤ as_hlc_timestamp_now last pt := by
  unfold as_hlc_timestamp_now
  exact le_trans (Nat.mul_le_mul_right _ (le_max_right _ _))
    (commit_lower _ _)

theorem runOutputs_replicate_now_big (pt : Nat) :
    ∀ (n s : Nat), ∃ x ∈ runOutputs s (List.replicate (n + 1) (HlcOp.now pt)),
      as_hlc_timestamp_now s pt + n ≤ x := by
  intro n
  induction n with
  | zero =>
    intro s
    refine ⟨as_hlc_timestamp_now s pt, ?_, Nat.le_refl _⟩
    simp [runOutputs, stepOp]
  | succ n ih =>
    intro s
    obtain ⟨x, hx, hge⟩ := ih (as_hlc_timestamp_now s pt)
    refine ⟨x, ?_, ?_⟩
    · rw [List.replicate_succ, runOutputs]
      exact List.mem_cons_of_mem _ hx
    · have hstep : as_hlc_timestamp_now s pt < as_hlc_timestamp_now (as_hlc_timestamp_now s pt) pt :=
        now_gt _ _
      omega

/-! ### Claim theorems -/

/-- C1: strict monotonicity of issuance.  For every sequence of
`as_hlc_timestamp_now` and `as_hlc_timestamp_update` calls on a single clock
state, each returned (committed) timestamp is strictly greater than every
timestamp previously returned by that state; no two issuances are equal. -/
theorem hlc_issuance_strict_mono (s0 : Nat) (ops : List HlcOp) :
    List.Pairwise (· < ·) (runOutputs s0 ops) :=
  runOutputs_pairwise ops s0

/-- C2: causal merge guarantee.  For every remote send timestamp, pre-call
state `last` and wall reading `pt`, the receipt pair produced by
`as_hlc_timestamp_update` carries a receive timestamp strictly greater than
both the send timestamp and `last`, together with the send timestamp copied
verbatim. -/
theorem hlc_causal_merge_guarantee (last send_ts pt : Nat) :
    send_ts < (as_hlc_timestamp_update_msg last send_ts pt).recv_ts
    ∧ last < (as_hlc_timestamp_update_msg last send_ts pt).recv_ts
    ∧ (as_hlc_timestamp_update_msg last send_ts pt).send_ts = send_ts
    ∧ (as_hlc_timestamp_update_msg last send_ts pt).recv_ts
        = as_hlc_timestamp_update last send_ts pt :=
  ⟨update_gt_send last send_ts pt, update_gt_last last send_ts pt, rfl, rfl⟩

/-- C3: the causal merge rule.  With candidate physical component `cp` equal
to the maximum of the two stored physical components and the wall reading,
the logical component is assigned by case exactly as the spec states, and on
the concrete scenario `last = pack 2000 5`, `send_ts = pack 2000 9`,
`pt = 1990` the committed receive timestamp is `pack 2000 10`. -/
theorem hlc_merge_case_rule (last send_ts pt cp : Nat)
    (hcp : cp = max (max (unpack_physical last) (unpack_physical send_ts)) pt) :
    (cp = unpack_physical last → cp = unpack_physical send_ts →
      as_hlc_timestamp_update last send_ts pt
        = commit cp (max (unpack_logical last) (unpack_logical send_ts) + 1))
    ∧ (cp = unpack_physical last → cp ≠ unpack_physical send_ts →
      as_hlc_timestamp_update last send_ts pt
        = commit cp (unpack_logical last + 1))
    ∧ (cp ≠ unpack_physical last → cp = unpack_physical send_ts →
      as_hlc_timestamp_update last send_ts pt
        = commit cp (unpack_logical send_ts + 1))
    ∧ (unpack_physical last < cp → unpack_physical send_ts < cp →
      as_hlc_timestamp_update last send_ts pt = commit cp 0)
    ∧ as_hlc_timestamp_update (pack 2000 5) (pack 2000 9) 1990 = pack 2000 10 := by
  subst hcp
  refine ⟨?_, ?_, ?_, ?_, by decide⟩
  · intro h1 h2
    unfold as_hlc_timestamp_update merge_logical merge_candidate
    rw [if_pos h1, if_pos h2]
  · intro h1 h2
    unfold as_hlc_timestamp_update merge_logical merge_candidate
    rw [if_pos h1, if_neg h2]
  · intro h1 h2
    unfold as_hlc_timestamp_update merge_logical merge_candidate
    rw [if_neg h1, if_pos h2]
  · intro h1 h2
    unfold as_hlc_timestamp_update merge_logical merge_candidate
    rw [if_neg (ne_of_gt h1), if_neg (ne_of_gt h2)]

/-- Witness for C3: instantiating the case rule on the spec's concrete
scenario, whose candidate physical component matches both stored physical
components. -/
theorem hlc_merge_case_rule_witness :
    as_hlc_timestamp_update (pack 2000 5) (pack 2000 9) 1990
      = commit 2000 (max (unpack_logical (pack 2000 5)) (unpack_logical (pack 2000 9)) + 1) :=
  (hlc_merge_case_rule (pack 2000 5) (pack 2000 9) 1990 2000 (by decide)).1
    (by decide) (by decide)

/-- C4: logical-counter overflow handling.  A logical component exceeding
65535 bumps the candidate physical component by one millisecond and resets
the logical component to 0, and 65537 consecutive `as_hlc_timestamp_now`
calls with the wall clock frozen at `pt` yield 65537 strictly increasing
timestamps, at least one of which has a physical component greater than
`pt`. -/
theorem hlc_overflow_handling (s0 pt : Nat) :
    (∀ p k, commit p (65536 + k) = pack (p + 1) 0)
    ∧ (runOutputs s0 (List.replicate 65537 (HlcOp.now pt))).length = 65537
    ∧ List.Pairwise (· < ·) (runOutputs s0 (List.replicate 65537 (HlcOp.now pt)))
    ∧ ∃ x ∈ runOutputs s0 (List.replicate 65537 (HlcOp.now pt)),
        pt < unpack_physical x := by
  refine ⟨?_, ?_, runOutputs_pairwise _ _, ?_⟩
  · intro p k
    unfold commit
    rw [if_pos (by omega)]
  · rw [runOutputs_length, List.length_replicate]
  · obtain ⟨x, hx, hge⟩ := runOutputs_replicate_now_big pt 65536 s0
    refine ⟨x, by norm_num at hx ⊢; exact hx, ?_⟩
    have h1 : pt * 65536 ≤ as_hlc_timestamp_now s0 pt := now_lower s0 pt
    unfold unpack_physical
    omega

/-- C5: the send-order rule.  For a receipt pair whose receive timestamp is
strictly greater than its send timestamp, `as_hlc_send_timestamp_order`
returns happens-after exactly when the local timestamp is at or past the
receive timestamp, happens-before exactly when it is strictly before the
send timestamp, and indeterminate exactly when it lies in the causal window
between the two. -/
theorem hlc_send_order_rule (local_ts : Nat) (msg_ts : as_hlc_msg_timestamp)
    (h : msg_ts.send_ts < msg_ts.recv_ts) :
    (as_hlc_send_timestamp_order local_ts msg_ts
        = as_hlc_timestamp_order.AS_HLC_HAPPENS_AFTER ↔ msg_ts.recv_ts ≤ local_ts)
    ∧ (as_hlc_send_timestamp_order local_ts msg_ts
        = as_hlc_timestamp_order.AS_HLC_HAPPENS_BEFORE ↔ local_ts < msg_ts.send_ts)
    ∧ (as_hlc_send_timestamp_order local_ts msg_ts
        = as_hlc_timestamp_order.AS_HLC_ORDER_INDETERMINATE ↔
          msg_ts.send_ts ≤ local_ts ∧ local_ts < msg_ts.recv_ts) := by
  unfold as_hlc_send_timestamp_order
  split_ifs with h1 h2 <;> simp_all <;> omega

/-- Witness for C5: a local timestamp strictly inside the causal window of a
receipt pair is ordered indeterminate. -/
theorem hlc_send_order_rule_witness :
    as_hlc_send_timestamp_order 5 ⟨3, 10⟩
      = as_hlc_timestamp_order.AS_HLC_ORDER_INDETERMINATE :=
  ((hlc_send_order_rule 5 ⟨3, 10⟩ (by decide)).2.2).mpr (by decide)

/-- C6 counterexample: seeding the clock at wall time 1000 stores
`pack 1000 0`, so the first Local Advance at the same wall millisecond
matches the stored physical component and increments the logical counter; it
returns `pack 1000 1`, not `pack 1000 0` as the claim states. -/
theorem hlc_init_scenario_counterexample :
    as_hlc_timestamp_now (as_hlc_init 1000) 1000 = pack 1000 1
    ∧ pack 1000 1 ≠ pack 1000 0 := by
  decide

/-- C6 amended: `as_hlc_init` at wall time 1000 seeds the state to
`pack 1000 0`, and three subsequent `as_hlc_timestamp_now` calls within the
same wall millisecond return `pack 1000 1`, `pack 1000 2` and `pack 1000 3`
in order. -/
theorem hlc_init_scenario_amended :
    as_hlc_init 1000 = pack 1000 0
    ∧ as_hlc_timestamp_now (as_hlc_init 1000) 1000 = pack 1000 1
    ∧ as_hlc_timestamp_now (pack 1000 1) 1000 = pack 1000 2
    ∧ as_hlc_timestamp_now (pack 1000 2) 1000 = pack 1000 3 := by
  decide

/-- C7: codec round trip.  For every physical component fitting in 48 bits
and every logical component in `[0, 65535]`, `as_hlc_physical_ts_get`
recovers the physical component of the packed value exactly. -/
theorem hlc_codec_round_trip (p l : Nat) (hp : p < 2 ^ 48) (hl : l ≤ 65535) :
    as_hlc_physical_ts_get (pack p l) = p := by
  unfold as_hlc_physical_ts_get
  exact unpack_physical_pack p l (by omega)

/-- Witness for C7: the round trip at a concrete in-range input, with the
logical component at its maximum. -/
theorem hlc_codec_round_trip_witness :
    as_hlc_physical_ts_get (pack 1000 65535) = 1000 :=
  hlc_codec_round_trip 1000 65535 (by norm_num) (by norm_num)

/-- C8: the `as_hlc_timestamp_subtract_ms` contract.  The result is the
packed clamped physical difference with logical component zero; subtracting
zero preserves the physical component, and subtracting a non-negative
amount never increases it. -/
theorem hlc_subtract_ms_contract (ts : Nat) (ms : Int) :
    as_hlc_timestamp_subtract_ms ts ms
        = pack ((unpack_physical ts : Int) - ms).toNat 0
    ∧ unpack_logical (as_hlc_timestamp_subtract_ms ts ms) = 0
    ∧ unpack_physical (as_hlc_timestamp_subtract_ms ts 0) = unpack_physical ts
    ∧ (0 ≤ ms →
        unpack_physical (as_hlc_timestamp_subtract_ms ts ms) ≤ unpack_physical ts) := by
  refine ⟨rfl, ?_, ?_, ?_⟩
  · exact unpack_logical_pack _ 0 (by norm_num)
  · unfold as_hlc_timestamp_subtract_ms
    rw [unpack_physical_pack _ 0 (by norm_num)]
    omega
  · intro h
    unfold as_hlc_timestamp_subtract_ms
    rw [unpack_physical_pack _ 0 (by norm_num)]
    omega

/-- Witness for C8: subtracting 2 ms from `pack 5 3` does not increase the
physical component. -/
theorem hlc_subtract_ms_contract_witness :
    unpack_physical (as_hlc_timestamp_subtract_ms (pack 5 3) 2)
      ≤ unpack_physical (pack 5 3) :=
  (hlc_subtract_ms_contract (pack 5 3) 2).2.2.2 (by norm_num)

/-- C9: `as_hlc_timestamp_diff_ms` is the signed difference of the physical
components (logical components ignored), hence antisymmetric. -/
theorem hlc_diff_ms_antisymm (ts1 ts2 : Nat) :
    as_hlc_timestamp_diff_ms ts1 ts2
        = (unpack_physical ts1 : Int) - (unpack_physical ts2 : Int)
    ∧ as_hlc_timestamp_diff_ms ts1 ts2 = - as_hlc_timestamp_diff_ms ts2 ts1 := by
  refine ⟨rfl, ?_⟩
  unfold as_hlc_timestamp_diff_ms
  ring

/-- C10: a NULL receipt-pair output pointer is valid.  The clock state
advances past the send timestamp exactly as with a non-NULL pointer, nothing
is written through the NULL pointer, and with a non-NULL pointer the receipt
pair is written. -/
theorem hlc_update_null_msg_ts (last send_ts pt : Nat) :
    (as_hlc_timestamp_update_out last send_ts pt true).1
        = (as_hlc_timestamp_update_out last send_ts pt false).1
    ∧ (as_hlc_timestamp_update_out last send_ts pt true).2 = none
    ∧ (as_hlc_timestamp_update_out last send_ts pt false).2
        = some (as_hlc_timestamp_update_msg last send_ts pt)
    ∧ send_ts < (as_hlc_timestamp_update_out last send_ts pt true).1
    ∧ last < (as_hlc_timestamp_update_out last send_ts pt true).1 :=
  ⟨rfl, rfl, rfl, update_gt_send last send_ts pt, update_gt_last last send_ts pt⟩

end HLC
